import Mathlib

/-!
Verification development for the findmine-mcp integration layer.

Shallow embedding of the core components: the TTL fingerprint cache
(src/utils/cache.ts), the cache-key builders of the integration service
(src/services/findmine-service.ts), the upstream client retry loop and
response normalization (src/api/findmine-client.ts), the resource mapper
(src/utils/resource-mapper.ts), and the orchestration of
FindMineService.getCompleteTheLook / getVisuallySimilar. Time is modelled
as a natural-number millisecond clock passed explicitly; JavaScript
truthiness on optional strings and numbers is modelled explicitly.
-/

/-- An entry of the TTL cache: stored value plus absolute expiry timestamp.
Mirrors the CacheEntry interface of src/utils/cache.ts. -/
structure CacheEntry (V : Type) where
  value : V
  expiry : Nat
deriving DecidableEq

/-- The in-memory cache of src/utils/cache.ts: a map from string keys to
entries, with a fixed ttl (milliseconds) given at construction. -/
structure Cache (V : Type) where
  ttlMs : Nat
  map : String → Option (CacheEntry V)

/-- Cache.set: stores the value with expiry = now + ttlMs, overwriting
unconditionally (cache.ts lines 21-24, with Date.now() passed as now). -/
def Cache.set {V : Type} (c : Cache V) (now : Nat) (key : String) (value : V) : Cache V :=
  { c with map := fun k => if k = key then some ⟨value, now + c.ttlMs⟩ else c.map k }

/-- Cache.get: returns the stored value unless absent or expired; an
expired entry is deleted as a side effect, so the updated cache is
returned alongside the result (cache.ts lines 30-44). -/
def Cache.get {V : Type} (c : Cache V) (now : Nat) (key : String) : Option V × Cache V :=
  match c.map key with
  | none => (none, c)
  | some entry =>
    if entry.expiry < now then
      (none, { c with map := fun k => if k = key then none else c.map k })
    else
      (some entry.value, c)

/-- Cache.createKey: joins the parts with the fixed separator
(cache.ts lines 82-84). -/
def Cache.createKey (parts : List String) : String :=
  String.intercalate ":" parts

/-- JavaScript a || b on an optional string a: the empty string and
absence are both falsy and fall through to b. -/
def jsOrStr (a : Option String) (b : String) : String :=
  match a with
  | some s => if s = "" then b else s
  | none => b

/-- String(options.returnPdpItem) on an optional boolean: undefined prints
as the literal string shown in the key. -/
def jsStringOfOptBool (o : Option Bool) : String :=
  match o with
  | some true => "true"
  | some false => "false"
  | none => "undefined"

/-- String(options.limit || 'default') on an optional number: absence and
0 are falsy in JavaScript and print as the default marker. -/
def jsNumOrDefault (o : Option Nat) : String :=
  match o with
  | some n => if n = 0 then "default" else toString n
  | none => "default"

/-- Customer gender option forwarded to the upstream request. -/
inductive Gender where
  | M
  | W
  | U
deriving DecidableEq

/-- The argument bundle of FindMineService.getCompleteTheLook: positional
productId/inStock/onSale plus the options object. -/
structure CTLParams where
  productId : String
  inStock : Bool
  onSale : Bool
  colorId : Option String := none
  sessionId : Option String := none
  customerId : Option String := none
  returnPdpItem : Option Bool := none
  gender : Option Gender := none
  useCache : Option Bool := none
  apiVersion : Option String := none
deriving DecidableEq

/-- The argument bundle of FindMineService.getVisuallySimilar. -/
structure VSParams where
  productId : String
  colorId : Option String := none
  sessionId : Option String := none
  customerId : Option String := none
  limit : Option Nat := none
  offset : Option Nat := none
  gender : Option Gender := none
  useCache : Option Bool := none
  apiVersion : Option String := none
deriving DecidableEq

/-- The cache key built by getCompleteTheLook
(findmine-service.ts lines 76-83). -/
def ctlCacheKey (p : CTLParams) : String :=
  Cache.createKey
    [ "completeTheLook"
    , p.productId
    , jsOrStr p.colorId "default"
    , toString p.inStock
    , toString p.onSale
    , jsStringOfOptBool p.returnPdpItem ]

/-- The cache key built by getVisuallySimilar
(findmine-service.ts lines 193-199). -/
def vsCacheKey (p : VSParams) : String :=
  Cache.createKey
    [ "visuallySimilar"
    , p.productId
    , jsOrStr p.colorId "default"
    , jsNumOrDefault p.limit
    , jsNumOrDefault p.offset ]

/-- Claim C1: for a cache with ttl > 0, a value set at time t is returned
unchanged by get at any t' with t ≤ t' ≤ t + ttl, is absent for any
t' > t + ttl, and a get on an expired key removes that key. -/
theorem cache_ttl_window {V : Type} (c : Cache V) (k : String) (v : V) (t t' : Nat)
    (httl : 0 < c.ttlMs) :
    (t ≤ t' → t' ≤ t + c.ttlMs → (Cache.get (Cache.set c t k v) t' k).1 = some v) ∧
    (t + c.ttlMs < t' →
      (Cache.get (Cache.set c t k v) t' k).1 = none ∧
      (Cache.get (Cache.set c t k v) t' k).2.map k = none) := by
  have hmap : (Cache.set c t k v).map k = some ⟨v, t + c.ttlMs⟩ := by
    simp [Cache.set]
  constructor
  · intro _ hle
    unfold Cache.get
    rw [hmap]
    simp only
    rw [if_neg (by omega)]
  · intro hgt
    unfold Cache.get
    rw [hmap]
    simp only
    rw [if_pos (by omega)]
    exact ⟨rfl, by simp⟩

/-- Concrete instance of the C1 theorem: ttl 5, set at time 0, read back
at time 3 and found expired at time 6. -/
def c1CacheNat : Cache Nat :=
  { ttlMs := 5, map := fun _ => none }

theorem cache_ttl_window_witness :
    ((Cache.get (Cache.set c1CacheNat 0 "k" 7) 3 "k").1 = some 7) ∧
    ((Cache.get (Cache.set c1CacheNat 0 "k" 7) 6 "k").1 = none ∧
      (Cache.get (Cache.set c1CacheNat 0 "k" 7) 6 "k").2.map "k" = none) :=
  ⟨(cache_ttl_window c1CacheNat "k" 7 0 3 (by decide)).1 (by decide) (by decide),
   (cache_ttl_window c1CacheNat "k" 7 0 6 (by decide)).2 (by decide)⟩

/-- Claim C2, counterexample: two getCompleteTheLook calls that differ in
color id (absent versus the literal string that the key builder also uses
as its fallback marker) produce the identical cache key, because the
JavaScript expression options.colorId || 'default' conflates them. -/
theorem ctlCacheKey_not_injective :
    let p : CTLParams := { productId := "P1", inStock := true, onSale := false }
    let q : CTLParams := { productId := "P1", inStock := true, onSale := false,
                           colorId := some "default" }
    p.colorId ≠ q.colorId ∧ ctlCacheKey p = ctlCacheKey q := by
  constructor
  · decide
  · rfl

/-- An upstream product object as received on the wire. All fields are
optional at runtime (the TypeScript interface marks several required, but
nothing enforces them on a parsed JSON body); property access on a
missing field yields undefined, modelled by none. Mirrors FindMineProduct
in src/types/findmine-api.ts together with the item_id field that
resource-mapper.ts reads on items entries. Prices are integer
minor-currency units. -/
structure FMProduct where
  product_id : Option String := none
  item_id : Option String := none
  product_color_id : Option String := none
  name : Option String := none
  description : Option String := none
  brand : Option String := none
  price : Option Nat := none
  sale_price : Option Nat := none
  url : Option String := none
  image_url : Option String := none
  in_stock : Option Bool := none
  on_sale : Option Bool := none
  category : Option String := none
  attributes : Option (List (String × String)) := none
deriving DecidableEq

/-- The items field of a raw look: some API versions send an array of
product objects, others a mapping from id to product object. Array
entries (and mapping values) may be null, modelled by none. -/
inductive ItemsVal where
  | list (items : List (Option FMProduct))
  | mapping (entries : List (String × Option FMProduct))
deriving DecidableEq

/-- A raw look object from the complete-the-look response before or after
client normalization (the RawLook interface of findmine-client.ts): the
identifier may live under look_id or id, and member products under
products, items, or as a bare id list under order. -/
structure RawLook where
  look_id : Option String := none
  id : Option String := none
  title : Option String := none
  description : Option String := none
  url : Option String := none
  image_url : Option String := none
  products : Option (List (Option FMProduct)) := none
  items : Option ItemsVal := none
  order : Option (List (Option String)) := none
  attributes : Option (List (String × String)) := none
deriving DecidableEq

/-- The domain product entity (ProductResource in src/types/mcp.ts). The
id copies product_id verbatim, hence is itself optional. -/
structure ProductResource where
  id : Option String
  colorId : Option String
  name : Option String
  description : Option String
  brand : Option String
  price : Option Nat
  salePrice : Option Nat
  formattedPrice : Option String
  formattedSalePrice : Option String
  url : Option String
  imageUrl : Option String
  inStock : Option Bool
  onSale : Option Bool
  category : Option String
  attributes : Option (List (String × String))
deriving DecidableEq

/-- The domain look entity (LookResource in src/types/mcp.ts): identifier,
title (both always materialized by the mapper), optional descriptive
fields, and the ordered product-id sequence. -/
structure LookResource where
  id : String
  title : String
  description : Option String
  url : Option String
  imageUrl : Option String
  productIds : List String
  attributes : Option (List (String × String))
deriving DecidableEq

/-- formatPrice of src/utils/formatters.ts at its call sites in the
mapper (default currency, price in cents): absent prices map to absent;
a number c renders as dollars and two zero-padded cent digits. -/
def formatPrice (price : Option Nat) : Option String :=
  price.map fun c =>
    "$" ++ toString (c / 100) ++ "." ++ (if c % 100 < 10 then "0" else "") ++ toString (c % 100)

/-- mapProductToResource of src/utils/resource-mapper.ts lines 12-30:
field-by-field copy plus derived formatted prices; the formatted sale
price is only computed when sale_price is truthy (so a 0 sale price
yields none, as in the source's conditional). -/
def mapProductToResource (product : FMProduct) : ProductResource :=
  { id := product.product_id
  , colorId := product.product_color_id
  , name := product.name
  , description := product.description
  , brand := product.brand
  , price := product.price
  , salePrice := product.sale_price
  , formattedPrice := formatPrice product.price
  , formattedSalePrice :=
      match product.sale_price with
      | some sp => if sp = 0 then none else formatPrice (some sp)
      | none => none
  , url := product.url
  , imageUrl := product.image_url
  , inStock := product.in_stock
  , onSale := product.on_sale
  , category := product.category
  , attributes := product.attributes }

/-- The look identifier resolution of resource-mapper.ts line 37:
look.look_id || look.id || a synthetic id built from a random draw. The
random digits drawn by Math.random().toString().slice(2, 8) are passed in
explicitly as rand. -/
def lookIdOf (rand : String) (look : RawLook) : String :=
  jsOrStr look.look_id (jsOrStr look.id ("unknown-" ++ rand))

/-- A JavaScript Array.map whose body may throw: the first throwing entry
aborts the whole map with that error. -/
def throwMap {A B : Type} (f : A → Except Unit B) : List A → Except Unit (List B)
  | [] => Except.ok []
  | a :: as =>
    match f a with
    | Except.error e => Except.error e
    | Except.ok b =>
      match throwMap f as with
      | Except.error e => Except.error e
      | Except.ok bs => Except.ok (b :: bs)

/-- The body of the products-array branch of the mapper:
product.product_id || the empty-string fallback; a null entry throws. -/
def prodEntryId : Option FMProduct → Except Unit String
  | none => Except.error ()
  | some p => Except.ok (jsOrStr p.product_id "")

/-- The body of the items-array branch of the mapper: item.product_id ||
item.item_id || two-step fallback; a null entry throws. -/
def itemEntryId : Option FMProduct → Except Unit String
  | none => Except.error ()
  | some it => Except.ok (jsOrStr it.product_id (jsOrStr it.item_id ""))

/-- The product-id resolution of resource-mapper.ts lines 40-51: prefer
the products array (ids via product_id, empties filtered), else an items
array (ids via product_id or item_id), else the bare order list, else
empty. Reading a field of a null array entry throws in JavaScript, which
is modelled as an error result. -/
def resolveProductIds (look : RawLook) : Except Unit (List String) :=
  match look.products with
  | some ps =>
    (throwMap prodEntryId ps).map (fun l => l.filter (fun s => s ≠ ""))
  | none =>
    match look.items with
    | some (ItemsVal.list its) =>
      (throwMap itemEntryId its).map (fun l => l.filter (fun s => s ≠ ""))
    | _ =>
      match look.order with
      | some os =>
        Except.ok (os.filterMap fun o =>
          match o with
          | none => none
          | some s => if s = "" then none else some s)
      | none => Except.ok []

/-- mapLookToResource of src/utils/resource-mapper.ts lines 35-62. The
random draw used for the synthetic id fallback is an explicit argument;
a thrown TypeError (null member access) is an error result. -/
def mapLookToResource (rand : String) (look : RawLook) : Except Unit LookResource :=
  let lookId := lookIdOf rand look
  match resolveProductIds look with
  | Except.error e => Except.error e
  | Except.ok productIds =>
    Except.ok
      { id := lookId
      , title := jsOrStr look.title ("Look " ++ lookId)
      , description := look.description
      , url := look.url
      , imageUrl := look.image_url
      , productIds := productIds
      , attributes := look.attributes }

/-- The per-look normalization of FindMineClient.makeRequest
(findmine-client.ts lines 173-194): copy the look, promote id to look_id
when look_id is falsy, and when products is absent promote items to
products (using only the values when items is an id-to-product mapping). -/
def normalizeLook (look : RawLook) : RawLook :=
  let n1 :=
    if jsOrStr look.look_id "" = "" ∧ jsOrStr look.id "" ≠ "" then
      { look with look_id := look.id }
    else look
  match n1.products, n1.items with
  | none, some (ItemsVal.list its) => { n1 with products := some its }
  | none, some (ItemsVal.mapping kvs) => { n1 with products := some (kvs.map Prod.snd) }
  | _, _ => n1

/-- A raw complete-the-look response body before client normalization
(the RawCompleteTheLookResponse interface of findmine-client.ts): the
looks array may be missing and its entries may be null. -/
structure RawCTLResponse where
  pdp_item : Option FMProduct := none
  looks : Option (List (Option RawLook)) := none
deriving DecidableEq

/-- A complete-the-look response after client normalization
(CompleteTheLookResponse in src/types/findmine-api.ts): looks is always
an array and, because the client spreads each entry (a null spreads to an
empty object), its entries are plain look objects. -/
structure CTLResponse where
  pdp_item : Option FMProduct
  looks : List RawLook
deriving DecidableEq

/-- A visually-similar response (VisuallySimilarResponse in
src/types/findmine-api.ts); the client applies no normalization here. -/
structure VSResponse where
  products : List FMProduct
  total : Nat
deriving DecidableEq

/-- The complete-the-look normalization of FindMineClient.makeRequest
(findmine-client.ts lines 159-197): default a missing looks array to
empty, spread each (possibly null) entry into a fresh object, and
normalize it with normalizeLook. -/
def clientNormalizeCTL (r : RawCTLResponse) : CTLResponse :=
  { pdp_item := r.pdp_item
  , looks := (r.looks.getD []).map fun olk => normalizeLook (olk.getD {}) }

/-- JavaScript property-key coercion: storing under obj[x] with x
undefined uses the literal string "undefined" as the key. -/
def jsPropKey (o : Option String) : String :=
  o.getD "undefined"

/-- The process-wide resource store (ResourceStore in src/types/mcp.ts):
id-indexed maps of products and looks, written only by the service. -/
structure ResourceStore where
  products : String → Option ProductResource
  looks : String → Option LookResource

/-- Store write this.resources.products[p.id] = p (last write wins). -/
def ResourceStore.addProduct (st : ResourceStore) (pr : ProductResource) : ResourceStore :=
  { st with products := fun k => if k = jsPropKey pr.id then some pr else st.products k }

/-- Store write this.resources.looks[l.id] = l (last write wins). -/
def ResourceStore.addLook (st : ResourceStore) (lr : LookResource) : ResourceStore :=
  { st with looks := fun k => if k = lr.id then some lr else st.looks k }

/-- The expression look.products || look.items || [] in the service's
product-storing loop (findmine-service.ts line 140), combined with the
Array.isArray guard on line 141: an items mapping is truthy but not an
array, so it contributes no iterations. -/
def looseProducts (look : RawLook) : List (Option FMProduct) :=
  match look.products with
  | some ps => ps
  | none =>
    match look.items with
    | some (ItemsVal.list its) => its
    | some (ItemsVal.mapping _) => []
    | none => []

/-- One iteration of the service's look loop (findmine-service.ts lines
133-162): map the look (a failure skips the whole look), publish it, then
walk its products, skipping falsy entries and entries without a truthy
product_id, publishing the rest. -/
def processLook (rand : String) (st : ResourceStore) (look : RawLook) :
    ResourceStore × Option LookResource :=
  match mapLookToResource rand look with
  | Except.error _ => (st, none)
  | Except.ok lr =>
    let st1 := st.addLook lr
    let st2 := (looseProducts look).foldl
      (fun s op =>
        match op with
        | none => s
        | some p =>
          if jsOrStr p.product_id "" = "" then s
          else s.addProduct (mapProductToResource p)) st1
    (st2, some lr)

/-- The full look loop, threading the store and collecting the
successfully mapped looks in order; rand supplies the random draw for the
i-th look's synthetic-id fallback. -/
def processLooks (rand : Nat → String) : Nat → ResourceStore → List RawLook →
    List LookResource × ResourceStore
  | _, st, [] => ([], st)
  | i, st, lk :: rest =>
    match processLook (rand i) st lk with
    | (st1, none) => processLooks rand (i + 1) st1 rest
    | (st1, some lr) =>
      let (ls, st2) := processLooks rand (i + 1) st1 rest
      (lr :: ls, st2)

/-- The resource-publication tail of getCompleteTheLook (findmine-service.ts
lines 125-167): map the pdp item when present, then run the look loop. -/
def publishCTL (rand : Nat → String) (st : ResourceStore) (resp : CTLResponse) :
    (Option ProductResource × List LookResource) × ResourceStore :=
  let (product, st1) :=
    match resp.pdp_item with
    | some pi =>
      let pr := mapProductToResource pi
      (some pr, st.addProduct pr)
    | none => (none, st)
  let (looks, st2) := processLooks rand 0 st1 resp.looks
  ((product, looks), st2)

/-- The resource-publication tail of getVisuallySimilar (findmine-service.ts
lines 239-249): map every product and publish each into the store. -/
def publishVS (st : ResourceStore) (resp : VSResponse) :
    (List ProductResource × Nat) × ResourceStore :=
  let prs := resp.products.map mapProductToResource
  ((prs, resp.total), prs.foldl (fun s pr => s.addProduct pr) st)

/-- The configuration the service reads (config.ts): the cache
enabled-flag and the default session id. -/
structure SvcConfig where
  cacheEnabled : Bool
  defaultSessionId : String := "default-session"

/-- The mutable state owned by the FindMineService singleton: its two
caches, the resource store, and a counter of upstream client calls (the
observable the spec's call-count assertion is about). -/
structure ServiceState where
  ctlCache : Cache CTLResponse
  vsCache : Cache VSResponse
  store : ResourceStore
  clientCalls : Nat

/-- options.useCache !== false && config.cache.enabled
(findmine-service.ts line 73). -/
def effUseCache (cfg : SvcConfig) (uc : Option Bool) : Bool :=
  if uc = some false then false else cfg.cacheEnabled

/-- FindMineService.getCompleteTheLook (findmine-service.ts lines 55-168).
The upstream HTTP exchange is abstracted: upstream is the raw body a
successful client call would fetch, and each client call increments
clientCalls and normalizes that body exactly as FindMineClient does. -/
def svcGetCTL (cfg : SvcConfig) (p : CTLParams) (now : Nat) (rand : Nat → String)
    (upstream : RawCTLResponse) (st : ServiceState) :
    (Option ProductResource × List LookResource) × ServiceState :=
  let _sessionId := jsOrStr p.sessionId cfg.defaultSessionId
  let cacheKey := ctlCacheKey p
  let (response, cache1, calls1) :=
    if effUseCache cfg p.useCache then
      match Cache.get st.ctlCache now cacheKey with
      | (some cached, c1) => (cached, c1, st.clientCalls)
      | (none, c1) =>
        let resp := clientNormalizeCTL upstream
        (resp, Cache.set c1 now cacheKey resp, st.clientCalls + 1)
    else
      (clientNormalizeCTL upstream, st.ctlCache, st.clientCalls + 1)
  let (result, store1) := publishCTL rand st.store response
  (result, { st with ctlCache := cache1, store := store1, clientCalls := calls1 })

/-- FindMineService.getVisuallySimilar (findmine-service.ts lines 173-250),
abstracted the same way as svcGetCTL. -/
def svcGetVS (cfg : SvcConfig) (p : VSParams) (now : Nat)
    (upstream : VSResponse) (st : ServiceState) :
    (List ProductResource × Nat) × ServiceState :=
  let _sessionId := jsOrStr p.sessionId cfg.defaultSessionId
  let cacheKey := vsCacheKey p
  let (response, cache1, calls1) :=
    if effUseCache cfg p.useCache then
      match Cache.get st.vsCache now cacheKey with
      | (some cached, c1) => (cached, c1, st.clientCalls)
      | (none, c1) =>
        (upstream, Cache.set c1 now cacheKey upstream, st.clientCalls + 1)
    else
      (upstream, st.vsCache, st.clientCalls + 1)
  let (result, store1) := publishVS st.store response
  (result, { st with vsCache := cache1, store := store1, clientCalls := calls1 })

/-- The accessor FindMineService.getProduct (findmine-service.ts
lines 318-320). -/
def svcGetProduct (st : ServiceState) (productId : String) : Option ProductResource :=
  st.store.products productId

/-- The accessor FindMineService.getLook (findmine-service.ts
lines 325-327). -/
def svcGetLook (st : ServiceState) (lookId : String) : Option LookResource :=
  st.store.looks lookId

/-- The freshly constructed service: empty caches with the configured
ttl, empty store, no upstream calls yet. -/
def ServiceState.init (ttlMs : Nat) : ServiceState :=
  { ctlCache := { ttlMs := ttlMs, map := fun _ => none }
  , vsCache := { ttlMs := ttlMs, map := fun _ => none }
  , store := { products := fun _ => none, looks := fun _ => none }
  , clientCalls := 0 }

/-- Observable events of the retry loop of FindMineClient.makeRequest: an
attempt numbered from 0, or a wait of the configured delay between two
attempts. -/
inductive ReqEvent where
  | attempt (n : Nat)
  | wait (ms : Nat)
deriving DecidableEq

/-- The body of the for-loop of makeRequest (findmine-client.ts lines
110-218). res gives the outcome of each numbered attempt (any failure
kind: transport error, unparseable body, non-2xx status). remaining is
the number of loop iterations still allowed, initially retryCount + 1, so
the source's attempt < retryCount test is remaining > 1 here. The fuel-0
case corresponds to falling out of the loop: throw lastError (or the
generic fallback when no attempt ran, impossible from the entry point). -/
def makeRequestGo {E A : Type} (res : Nat → Except E A) (delayMs : Nat) (fallback : E) :
    Nat → Nat → Option E → Except E A × List ReqEvent
  | _, 0, lastError => (Except.error (lastError.getD fallback), [])
  | attempt, remaining + 1, _ =>
    match res attempt with
    | Except.ok a => (Except.ok a, [ReqEvent.attempt attempt])
    | Except.error e =>
      if remaining = 0 then
        (Except.error e, [ReqEvent.attempt attempt])
      else
        let (r, tr) := makeRequestGo res delayMs fallback (attempt + 1) remaining (some e)
        (r, ReqEvent.attempt attempt :: ReqEvent.wait delayMs :: tr)

/-- FindMineClient.makeRequest with retry count retryCount and fixed
inter-attempt delay delayMs: run the loop from attempt 0 with
retryCount + 1 iterations of fuel and no last error. -/
def makeRequest {E A : Type} (res : Nat → Except E A) (retryCount delayMs : Nat)
    (fallback : E) : Except E A × List ReqEvent :=
  makeRequestGo res delayMs fallback 0 (retryCount + 1) none

/-- The event trace of a fully failing run starting at attempt a with n
further attempts to go: attempts a, a+1, ..., a+n separated by fixed
waits, with no wait after the last attempt. -/
def retryTrace (delayMs : Nat) : Nat → Nat → List ReqEvent
  | a, 0 => [ReqEvent.attempt a]
  | a, n + 1 => ReqEvent.attempt a :: ReqEvent.wait delayMs :: retryTrace delayMs (a + 1) n

theorem retryTrace_attempts (d : Nat) : ∀ n a,
    (retryTrace d a n).countP (fun e => match e with | ReqEvent.attempt _ => true | _ => false)
      = n + 1 := by
  intro n
  induction n with
  | zero => intro a; simp [retryTrace, List.countP_cons]
  | succ m ih => intro a; simp [retryTrace, List.countP_cons, ih (a + 1)]

theorem retryTrace_waits (d : Nat) : ∀ n a,
    (retryTrace d a n).countP (fun e => match e with | ReqEvent.wait _ => true | _ => false)
      = n := by
  intro n
  induction n with
  | zero => intro a; simp [retryTrace, List.countP_cons]
  | succ m ih => intro a; simp [retryTrace, List.countP_cons, ih (a + 1)]

theorem makeRequestGo_all_fail {E A : Type} (res : Nat → Except E A) (errs : Nat → E)
    (d : Nat) (fb : E) : ∀ n a le,
    (∀ i, a ≤ i → i ≤ a + n → res i = Except.error (errs i)) →
    makeRequestGo res d fb a (n + 1) le = (Except.error (errs (a + n)), retryTrace d a n) := by
  intro n
  induction n with
  | zero =>
    intro a le h
    rw [makeRequestGo, h a (Nat.le_refl a) (Nat.le_refl a)]
    simp [retryTrace]
  | succ m ih =>
    intro a le h
    rw [makeRequestGo, h a (Nat.le_refl a) (by omega)]
    simp only [if_neg (Nat.succ_ne_zero m)]
    rw [ih (a + 1) (some (errs a)) (fun i h1 h2 => h i (by omega) (by omega))]
    simp only [retryTrace]
    have harith : a + 1 + m = a + (m + 1) := by omega
    rw [harith]

/-- Claim C3: with retry count R and every attempt failing, makeRequest
performs exactly R + 1 attempts with one fixed wait between consecutive
attempts and none after the last, and surfaces the error of the final
attempt with no partial result. -/
theorem makeRequest_retry_exhaustion {E A : Type} (res : Nat → Except E A) (errs : Nat → E)
    (R d : Nat) (fb : E)
    (hfail : ∀ i, i ≤ R → res i = Except.error (errs i)) :
    makeRequest res R d fb = (Except.error (errs R), retryTrace d 0 R) ∧
    (makeRequest res R d fb).2.countP
      (fun e => match e with | ReqEvent.attempt _ => true | _ => false) = R + 1 ∧
    (makeRequest res R d fb).2.countP
      (fun e => match e with | ReqEvent.wait _ => true | _ => false) = R := by
  have hmain : makeRequest res R d fb = (Except.error (errs R), retryTrace d 0 R) := by
    unfold makeRequest
    rw [makeRequestGo_all_fail res errs d fb R 0 none
      (fun i h1 h2 => hfail i (by omega))]
    simp
  refine ⟨hmain, ?_, ?_⟩
  · rw [hmain]; exact retryTrace_attempts d R 0
  · rw [hmain]; exact retryTrace_waits d R 0

/-- Concrete instance of the C3 theorem: retry count 2, delay 10, every
attempt i failing with error i: three attempts, two waits, final error 2. -/
theorem makeRequest_retry_exhaustion_witness :
    makeRequest (fun i => (Except.error i : Except Nat Unit)) 2 10 999
        = (Except.error 2, retryTrace 10 0 2) ∧
    (makeRequest (fun i => (Except.error i : Except Nat Unit)) 2 10 999).2.countP
      (fun e => match e with | ReqEvent.attempt _ => true | _ => false) = 3 ∧
    (makeRequest (fun i => (Except.error i : Except Nat Unit)) 2 10 999).2.countP
      (fun e => match e with | ReqEvent.wait _ => true | _ => false) = 2 :=
  makeRequest_retry_exhaustion (fun i => Except.error i) (fun i => i) 2 10 999
    (fun i _ => rfl)

theorem intercalateGo_data (s : String) : ∀ (as : List String) (acc : String),
    (String.intercalate.go acc s as).data
      = acc.data ++ (as.map (fun t => s.data ++ t.data)).flatten := by
  intro as
  induction as with
  | nil => intro acc; simp [String.intercalate.go]
  | cons b bs ih =>
    intro acc
    rw [String.intercalate.go, ih (acc ++ s ++ b)]
    simp [String.data_append, List.append_assoc]

theorem createKey_data (x : String) (xs : List String) :
    (Cache.createKey (x :: xs)).data
      = x.data ++ (xs.map (fun t => (":" : String).data ++ t.data)).flatten := by
  rw [Cache.createKey, String.intercalate]
  exact intercalateGo_data ":" xs x

/-- Joining with a fixed separator is injective in any single position
when every other position is held fixed (string append cancels on both
sides). -/
theorem createKey_inj_at (pre : List String) (x y : String) (suf : List String)
    (h : Cache.createKey (pre ++ x :: suf) = Cache.createKey (pre ++ y :: suf)) : x = y := by
  cases pre with
  | nil =>
    simp only [List.nil_append] at h
    have hd := congrArg String.data h
    rw [createKey_data, createKey_data] at hd
    exact String.ext (List.append_cancel_right hd)
  | cons p ps =>
    simp only [List.cons_append] at h
    have hd := congrArg String.data h
    rw [createKey_data, createKey_data] at hd
    simp only [List.map_append, List.map_cons, List.flatten_append, List.flatten_cons,
      List.append_assoc] at hd
    have h1 := List.append_cancel_left hd
    have h2 := List.append_cancel_left h1
    have h3 := List.append_cancel_left h2
    exact String.ext (List.append_cancel_right h3)

theorem toString_bool_inj : ∀ a b : Bool, toString a = toString b → a = b := by decide

theorem jsStringOfOptBool_inj : ∀ a b : Option Bool,
    jsStringOfOptBool a = jsStringOfOptBool b → a = b := by decide

/-- Claim C2 as amended: fingerprints ignore session id (and the other
inputs that do not enter the key: customer id, gender, useCache, api
version); and two calls differing in exactly one key-relevant input
fingerprint differently, where color id, limit and offset are compared
after the JavaScript-falsiness normalization the key builder applies
(absent and empty color ids both read as the default marker, as do absent
and zero limits/offsets). -/
theorem cacheKey_semantic_relevance :
    (∀ (p : CTLParams) (sid cid : Option String) (g : Option Gender) (uc : Option Bool)
        (av : Option String),
      ctlCacheKey { p with sessionId := sid, customerId := cid, gender := g,
                           useCache := uc, apiVersion := av } = ctlCacheKey p) ∧
    (∀ (p : VSParams) (sid cid : Option String) (g : Option Gender) (uc : Option Bool)
        (av : Option String),
      vsCacheKey { p with sessionId := sid, customerId := cid, gender := g,
                          useCache := uc, apiVersion := av } = vsCacheKey p) ∧
    (∀ p q : CTLParams,
      jsOrStr p.colorId "default" = jsOrStr q.colorId "default" →
      p.inStock = q.inStock → p.onSale = q.onSale → p.returnPdpItem = q.returnPdpItem →
      p.productId ≠ q.productId → ctlCacheKey p ≠ ctlCacheKey q) ∧
    (∀ p q : CTLParams,
      p.productId = q.productId →
      p.inStock = q.inStock → p.onSale = q.onSale → p.returnPdpItem = q.returnPdpItem →
      jsOrStr p.colorId "default" ≠ jsOrStr q.colorId "default" →
      ctlCacheKey p ≠ ctlCacheKey q) ∧
    (∀ p q : CTLParams,
      p.productId = q.productId →
      jsOrStr p.colorId "default" = jsOrStr q.colorId "default" →
      p.onSale = q.onSale → p.returnPdpItem = q.returnPdpItem →
      p.inStock ≠ q.inStock → ctlCacheKey p ≠ ctlCacheKey q) ∧
    (∀ p q : CTLParams,
      p.productId = q.productId →
      jsOrStr p.colorId "default" = jsOrStr q.colorId "default" →
      p.inStock = q.inStock → p.returnPdpItem = q.returnPdpItem →
      p.onSale ≠ q.onSale → ctlCacheKey p ≠ ctlCacheKey q) ∧
    (∀ p q : VSParams,
      jsOrStr p.colorId "default" = jsOrStr q.colorId "default" →
      jsNumOrDefault p.limit = jsNumOrDefault q.limit →
      jsNumOrDefault p.offset = jsNumOrDefault q.offset →
      p.productId ≠ q.productId → vsCacheKey p ≠ vsCacheKey q) ∧
    (∀ p q : VSParams,
      p.productId = q.productId →
      jsNumOrDefault p.limit = jsNumOrDefault q.limit →
      jsNumOrDefault p.offset = jsNumOrDefault q.offset →
      jsOrStr p.colorId "default" ≠ jsOrStr q.colorId "default" →
      vsCacheKey p ≠ vsCacheKey q) ∧
    (∀ p q : VSParams,
      p.productId = q.productId →
      jsOrStr p.colorId "default" = jsOrStr q.colorId "default" →
      jsNumOrDefault p.offset = jsNumOrDefault q.offset →
      jsNumOrDefault p.limit ≠ jsNumOrDefault q.limit →
      vsCacheKey p ≠ vsCacheKey q) ∧
    (∀ p q : VSParams,
      p.productId = q.productId →
      jsOrStr p.colorId "default" = jsOrStr q.colorId "default" →
      jsNumOrDefault p.limit = jsNumOrDefault q.limit →
      jsNumOrDefault p.offset ≠ jsNumOrDefault q.offset →
      vsCacheKey p ≠ vsCacheKey q) := by
  refine ⟨fun p sid cid g uc av => rfl, fun p sid cid g uc av => rfl,
    ?_, ?_, ?_, ?_, ?_, ?_, ?_, ?_⟩
  · intro p q hc hs ho hr hne hkey
    unfold ctlCacheKey at hkey
    rw [hc, hs, ho, hr] at hkey
    exact hne (createKey_inj_at ["completeTheLook"] _ _ [_, _, _, _] hkey)
  · intro p q hp hs ho hr hne hkey
    unfold ctlCacheKey at hkey
    rw [hp, hs, ho, hr] at hkey
    exact hne (createKey_inj_at ["completeTheLook", q.productId] _ _ [_, _, _] hkey)
  · intro p q hp hc ho hr hne hkey
    unfold ctlCacheKey at hkey
    rw [hp, hc, ho, hr] at hkey
    exact hne (toString_bool_inj _ _
      (createKey_inj_at ["completeTheLook", q.productId, jsOrStr q.colorId "default"]
        _ _ [_, _] hkey))
  · intro p q hp hc hs hr hne hkey
    unfold ctlCacheKey at hkey
    rw [hp, hc, hs, hr] at hkey
    exact hne (toString_bool_inj _ _
      (createKey_inj_at
        ["completeTheLook", q.productId, jsOrStr q.colorId "default", toString q.inStock]
        _ _ [_] hkey))
  · intro p q hc hl hof hne hkey
    unfold vsCacheKey at hkey
    rw [hc, hl, hof] at hkey
    exact hne (createKey_inj_at ["visuallySimilar"] _ _ [_, _, _] hkey)
  · intro p q hp hl hof hne hkey
    unfold vsCacheKey at hkey
    rw [hp, hl, hof] at hkey
    exact hne (createKey_inj_at ["visuallySimilar", q.productId] _ _ [_, _] hkey)
  · intro p q hp hc hof hne hkey
    unfold vsCacheKey at hkey
    rw [hp, hc, hof] at hkey
    exact hne (createKey_inj_at
      ["visuallySimilar", q.productId, jsOrStr q.colorId "default"] _ _ [_] hkey)
  · intro p q hp hc hl hne hkey
    unfold vsCacheKey at hkey
    rw [hp, hc, hl] at hkey
    exact hne (createKey_inj_at
      ["visuallySimilar", q.productId, jsOrStr q.colorId "default", jsNumOrDefault q.limit]
      _ _ [] hkey)

/-- Concrete instance of the amended C2 theorem: keys differ when only the
product id differs, and when only the (normalized) limit differs. -/
theorem cacheKey_semantic_relevance_witness :
    ctlCacheKey { productId := "A", inStock := true, onSale := false }
      ≠ ctlCacheKey { productId := "B", inStock := true, onSale := false } ∧
    vsCacheKey { productId := "P", limit := some 5 }
      ≠ vsCacheKey { productId := "P", limit := some 6 } :=
  ⟨cacheKey_semantic_relevance.2.2.1
      { productId := "A", inStock := true, onSale := false }
      { productId := "B", inStock := true, onSale := false }
      rfl rfl rfl rfl (by decide),
   cacheKey_semantic_relevance.2.2.2.2.2.2.2.2.1
      { productId := "P", limit := some 5 }
      { productId := "P", limit := some 6 }
      rfl rfl rfl (by decide)⟩

theorem normalizeLook_products_of_products (look : RawLook) (ps : List (Option FMProduct))
    (h : look.products = some ps) : (normalizeLook look).products = some ps := by
  unfold normalizeLook
  split_ifs <;>
  · rcases hit : look.items with _ | its <;> try cases its
    all_goals simp [h, hit]

theorem normalizeLook_products_of_items_list (look : RawLook) (its : List (Option FMProduct))
    (h1 : look.products = none) (h2 : look.items = some (ItemsVal.list its)) :
    (normalizeLook look).products = some its := by
  unfold normalizeLook
  split_ifs <;> simp [h1, h2]

theorem normalizeLook_products_of_items_mapping (look : RawLook)
    (kvs : List (String × Option FMProduct))
    (h1 : look.products = none) (h2 : look.items = some (ItemsVal.mapping kvs)) :
    (normalizeLook look).products = some (kvs.map Prod.snd) := by
  unfold normalizeLook
  split_ifs <;> simp [h1, h2]

theorem resolveProductIds_of_products (look : RawLook) (ps : List (Option FMProduct))
    (h : look.products = some ps) :
    resolveProductIds look
      = (throwMap prodEntryId ps).map (fun l => l.filter (fun s => s ≠ "")) := by
  unfold resolveProductIds
  rw [h]

theorem mapLook_productIds (r : String) (look : RawLook) :
    (mapLookToResource r look).map (fun lr => lr.productIds) = resolveProductIds look := by
  unfold mapLookToResource
  cases h : resolveProductIds look <;> simp [h, Except.map]

/-- A look carrying its member products as an embedded products list. -/
def withProductsList (base : RawLook) (ps : List (Option FMProduct)) : RawLook :=
  { base with products := some ps, items := none }

/-- A look carrying its member products as an alternate-keyed items list. -/
def withItemsList (base : RawLook) (ps : List (Option FMProduct)) : RawLook :=
  { base with products := none, items := some (ItemsVal.list ps) }

/-- A look carrying its member products as an items mapping from id to
product object. -/
def withItemsMapping (base : RawLook) (kvs : List (String × Option FMProduct)) : RawLook :=
  { base with products := none, items := some (ItemsVal.mapping kvs) }

/-- Claim C4: the same underlying member-product data, delivered as an
embedded products list, an alternate-keyed items list, or an items
mapping from id to product, yields the identical resolved product-id
sequence after client normalization followed by look mapping. -/
theorem look_shape_invariance (base : RawLook) (ps : List (Option FMProduct))
    (kvs : List (String × Option FMProduct)) (r : String)
    (hkv : kvs.map Prod.snd = ps) :
    ((mapLookToResource r (normalizeLook (withProductsList base ps))).map
        (fun lr => lr.productIds)
      = (mapLookToResource r (normalizeLook (withItemsList base ps))).map
        (fun lr => lr.productIds)) ∧
    ((mapLookToResource r (normalizeLook (withItemsList base ps))).map
        (fun lr => lr.productIds)
      = (mapLookToResource r (normalizeLook (withItemsMapping base kvs))).map
        (fun lr => lr.productIds)) := by
  have e1 := normalizeLook_products_of_products (withProductsList base ps) ps rfl
  have e2 := normalizeLook_products_of_items_list (withItemsList base ps) ps rfl rfl
  have e3 := normalizeLook_products_of_items_mapping (withItemsMapping base kvs) kvs rfl rfl
  rw [hkv] at e3
  constructor <;>
    rw [mapLook_productIds, mapLook_productIds, resolveProductIds_of_products _ ps e2] <;>
    [rw [resolveProductIds_of_products _ ps e1]; rw [resolveProductIds_of_products _ ps e3]]

/-- Concrete data for the C4 instance: a base look and one member
product, delivered in all three shapes. -/
def baseC4 : RawLook :=
  { look_id := some "L1" }

def psC4 : List (Option FMProduct) :=
  [some { product_id := some "P2", name := some "Pants" }]

def kvsC4 : List (String × Option FMProduct) :=
  [("P2", some { product_id := some "P2", name := some "Pants" })]

/-- Concrete instance of the C4 theorem: one member product delivered in
all three shapes resolves to the same id sequence. -/
theorem look_shape_invariance_witness :
    (kvsC4.map Prod.snd = psC4) ∧
    ((mapLookToResource "r" (normalizeLook (withProductsList baseC4 psC4))).map
        (fun lr => lr.productIds)
      = (mapLookToResource "r" (normalizeLook (withItemsList baseC4 psC4))).map
        (fun lr => lr.productIds)) :=
  ⟨rfl, (look_shape_invariance baseC4 psC4 kvsC4 "r" rfl).1⟩

instance exceptDecEq {E A : Type} [DecidableEq E] [DecidableEq A] :
    DecidableEq (Except E A) := fun a b =>
  match a, b with
  | Except.ok x, Except.ok y =>
    if h : x = y then isTrue (h ▸ rfl) else isFalse (fun hc => h (by injection hc))
  | Except.error e, Except.error f =>
    if h : e = f then isTrue (h ▸ rfl) else isFalse (fun hc => h (by injection hc))
  | Except.ok _, Except.error _ => isFalse (fun hc => by injection hc)
  | Except.error _, Except.ok _ => isFalse (fun hc => by injection hc)

/-- Claim C5, counterexample: a look with no usable identifier maps
through the synthetic-id fallback, which embeds the random digits drawn
by Math.random, so two applications of mapLookToResource to the very same
look object disagree. -/
theorem mapLook_not_deterministic :
    mapLookToResource "000000" {} ≠ mapLookToResource "111111" ({} : RawLook) := by
  decide

/-- The resolved look identifier is independent of the random draw
whenever the look has a usable (truthy) look_id or id. -/
theorem lookIdOf_usable (l : RawLook) (r : String)
    (h : jsOrStr l.look_id (jsOrStr l.id "") ≠ "") :
    lookIdOf r l = jsOrStr l.look_id (jsOrStr l.id "") := by
  unfold lookIdOf jsOrStr at *
  rcases hl : l.look_id with _ | s <;> rcases hi : l.id with _ | t <;>
    simp_all <;> split_ifs at * <;> simp_all

/-- Claim C5 as amended: mapProductToResource is deterministic on every
upstream product, and mapLookToResource is deterministic (independent of
the random draw) on every look carrying a usable identifier; only looks
with no usable id are mapped nondeterministically, through the synthetic
random id. -/
theorem mapper_deterministic :
    (∀ p : FMProduct, mapProductToResource p = mapProductToResource p) ∧
    (∀ (l : RawLook) (r1 r2 : String), jsOrStr l.look_id (jsOrStr l.id "") ≠ "" →
      mapLookToResource r1 l = mapLookToResource r2 l) := by
  refine ⟨fun p => rfl, fun l r1 r2 h => ?_⟩
  unfold mapLookToResource
  rw [lookIdOf_usable l r1 h, lookIdOf_usable l r2 h]

/-- Concrete instance of the amended C5 theorem: a look with a real
look_id maps identically under two different random draws. -/
theorem mapper_deterministic_witness :
    mapLookToResource "000000" { look_id := some "L1" }
      = mapLookToResource "111111" { look_id := some "L1" } :=
  mapper_deterministic.2 { look_id := some "L1" } "000000" "111111" (by decide)

/-- Whether an Except result is a success. -/
def exOk {E A : Type} : Except E A → Bool
  | Except.ok _ => true
  | Except.error _ => false

/-- Whether mapLookToResource succeeds on a look: it fails exactly when
the member list it walks (products, else an items array) contains a null
entry. -/
def lookMappable (l : RawLook) : Bool :=
  match l.products with
  | some ps => ps.all (fun op => op.isSome)
  | none =>
    match l.items with
    | some (ItemsVal.list its) => its.all (fun op => op.isSome)
    | _ => true

theorem exOk_throwMap_entry (f : Option FMProduct → Except Unit String)
    (hf : ∀ op, exOk (f op) = op.isSome) :
    ∀ ps : List (Option FMProduct), exOk (throwMap f ps) = ps.all (fun op => op.isSome) := by
  intro ps
  induction ps with
  | nil => rfl
  | cons a as ih =>
    rw [throwMap, List.all_cons]
    have ha := hf a
    cases h : f a with
    | error e =>
      rw [h] at ha
      simp only [exOk] at ha ⊢
      rw [← ha, Bool.false_and]
    | ok b =>
      rw [h] at ha
      simp only [exOk] at ha
      rw [← ha, Bool.true_and]
      cases h2 : throwMap f as with
      | error e =>
        rw [h2] at ih
        simp only [exOk] at ih ⊢
        exact ih
      | ok bs =>
        rw [h2] at ih
        simp only [exOk] at ih ⊢
        exact ih

theorem exOk_prodEntryId : ∀ op, exOk (prodEntryId op) = op.isSome := by
  intro op; cases op <;> rfl

theorem exOk_itemEntryId : ∀ op, exOk (itemEntryId op) = op.isSome := by
  intro op; cases op <;> rfl

theorem exOk_map {E A B : Type} (g : A → B) (e : Except E A) :
    exOk (e.map g) = exOk e := by
  cases e <;> rfl

theorem resolveProductIds_ok (l : RawLook) :
    exOk (resolveProductIds l) = lookMappable l := by
  unfold resolveProductIds lookMappable
  cases hp : l.products with
  | some ps => rw [exOk_map, exOk_throwMap_entry prodEntryId exOk_prodEntryId]
  | none =>
    cases hi : l.items with
    | none =>
      cases ho : l.order <;> rfl
    | some iv =>
      cases iv with
      | list its => rw [exOk_map, exOk_throwMap_entry itemEntryId exOk_itemEntryId]
      | mapping kvs => cases ho : l.order <;> rfl

theorem mapLook_ok (r : String) (l : RawLook) :
    exOk (mapLookToResource r l) = lookMappable l := by
  rw [← resolveProductIds_ok]
  unfold mapLookToResource
  cases h : resolveProductIds l <;> simp [h, exOk]

theorem processLook_some (r : String) (st : ResourceStore) (l : RawLook) :
    ((processLook r st l).2.isSome) = lookMappable l := by
  rw [← mapLook_ok r l]
  unfold processLook
  cases h : mapLookToResource r l <;> simp [h, exOk]

theorem processLooks_length (rand : Nat → String) :
    ∀ (lks : List RawLook) (i : Nat) (st : ResourceStore),
    (processLooks rand i st lks).1.length = lks.countP (fun l => lookMappable l) := by
  intro lks
  induction lks with
  | nil => intro i st; rfl
  | cons lk rest ih =>
    intro i st
    have hs := processLook_some (rand i) st lk
    rw [processLooks]
    rcases h : processLook (rand i) st lk with ⟨st1, olr⟩
    rw [h] at hs
    cases olr with
    | none =>
      simp only
      rw [ih (i + 1) st1, List.countP_cons]
      simp at hs
      simp [← hs]
    | some lr =>
      simp only [List.length_cons]
      rw [ih (i + 1) st1, List.countP_cons]
      simp at hs
      simp [← hs]

theorem looseProducts_of_products (look : RawLook) (ps : List (Option FMProduct))
    (h : look.products = some ps) : looseProducts look = ps := by
  unfold looseProducts
  rw [h]

theorem throwMap_skip_falsy (pb : FMProduct) (hpb : jsOrStr pb.product_id "" = "") :
    ∀ g1 g2 : List (Option FMProduct),
    (throwMap prodEntryId (g1 ++ some pb :: g2)).map (fun l => l.filter (fun s => s ≠ ""))
      = (throwMap prodEntryId (g1 ++ g2)).map (fun l => l.filter (fun s => s ≠ "")) := by
  intro g1
  induction g1 with
  | nil =>
    intro g2
    simp only [List.nil_append]
    rw [throwMap]
    simp only [prodEntryId, hpb]
    cases h : throwMap prodEntryId g2 with
    | error e => simp [Except.map]
    | ok bs => simp [Except.map]
  | cons a g1x ih =>
    intro g2
    simp only [List.cons_append]
    rw [throwMap, throwMap]
    cases h : prodEntryId a with
    | error e => rfl
    | ok b =>
      have ihg := ih g2
      cases h1 : throwMap prodEntryId (g1x ++ some pb :: g2) with
      | error e1 =>
        rw [h1] at ihg
        cases h2 : throwMap prodEntryId (g1x ++ g2) with
        | error e2 => rfl
        | ok bs2 => rw [h2] at ihg; exact absurd ihg (by simp [Except.map])
      | ok bs1 =>
        rw [h1] at ihg
        cases h2 : throwMap prodEntryId (g1x ++ g2) with
        | error e2 => rw [h2] at ihg; exact absurd ihg (by simp [Except.map])
        | ok bs2 =>
          rw [h2] at ihg
          simp only [Except.map, Except.ok.injEq] at ihg ⊢
          rw [List.filter_cons, List.filter_cons, ihg]

theorem processLook_skip_falsy (r : String) (st : ResourceStore) (lk : RawLook)
    (g1 g2 : List (Option FMProduct)) (pb : FMProduct)
    (hpb : jsOrStr pb.product_id "" = "")
    (hprod : lk.products = some (g1 ++ some pb :: g2)) :
    processLook r st lk = processLook r st { lk with products := some (g1 ++ g2) } := by
  have hres : resolveProductIds lk
      = resolveProductIds { lk with products := some (g1 ++ g2) } := by
    rw [resolveProductIds_of_products lk _ hprod,
      resolveProductIds_of_products { lk with products := some (g1 ++ g2) } _ rfl]
    exact throwMap_skip_falsy pb hpb g1 g2
  have hmap : mapLookToResource r lk
      = mapLookToResource r { lk with products := some (g1 ++ g2) } := by
    unfold mapLookToResource
    rw [hres]
    rfl
  unfold processLook
  rw [hmap]
  cases hm : mapLookToResource r { lk with products := some (g1 ++ g2) } with
  | error e => rfl
  | ok lr =>
    simp only
    have hl1 := looseProducts_of_products lk _ hprod
    have hl2 := looseProducts_of_products { lk with products := some (g1 ++ g2) }
      (g1 ++ g2) rfl
    rw [hl1, hl2]
    rw [List.foldl_append, List.foldl_append, List.foldl_cons]
    simp [hpb]

/-- Claim C6: partial-failure containment in the look-mapping loop of
getCompleteTheLook. First: in a batch where exactly one look is
unmappable (its walked member list contains a null entry) the loop
returns one fewer look than the batch size and never throws. Second: a
member product that is present but has no truthy product_id is skipped
exactly (processing the look as if that entry were absent), and a look
whose remaining member entries are non-null still maps. -/
theorem partial_failure_containment :
    (∀ (rand : Nat → String) (i : Nat) (st : ResourceStore)
        (pre post : List RawLook) (bad : RawLook),
      (∀ l ∈ pre, lookMappable l = true) → lookMappable bad = false →
      (∀ l ∈ post, lookMappable l = true) →
      (processLooks rand i st (pre ++ bad :: post)).1.length + 1
        = (pre ++ bad :: post).length) ∧
    (∀ (r : String) (st : ResourceStore) (lk : RawLook)
        (g1 g2 : List (Option FMProduct)) (pb : FMProduct),
      jsOrStr pb.product_id "" = "" → lk.products = some (g1 ++ some pb :: g2) →
      processLook r st lk = processLook r st { lk with products := some (g1 ++ g2) } ∧
      ((∀ x ∈ g1 ++ g2, x.isSome = true) → (processLook r st lk).2.isSome = true)) := by
  constructor
  · intro rand i st pre post bad hpre hbad hpost
    rw [processLooks_length rand, List.countP_append, List.countP_cons]
    rw [List.countP_eq_length.mpr hpre, List.countP_eq_length.mpr hpost]
    simp only [hbad]
    simp [List.length_append]
    omega
  · intro r st lk g1 g2 pb hpb hprod
    refine ⟨processLook_skip_falsy r st lk g1 g2 pb hpb hprod, fun hgood => ?_⟩
    rw [processLook_some r st lk]
    unfold lookMappable
    rw [hprod]
    rw [List.all_eq_true]
    intro x hx
    rcases List.mem_append.mp hx with hx1 | hx2
    · exact hgood x (List.mem_append.mpr (Or.inl hx1))
    · rcases List.mem_cons.mp hx2 with hx3 | hx4
      · rw [hx3]; rfl
      · exact hgood x (List.mem_append.mpr (Or.inr hx4))

/-- Concrete instance of the C6 theorem: a batch of three looks whose
middle element carries a null member product yields two mapped looks, and
a look with one id-less member product maps as if that entry were absent. -/
def goodLookC6 : RawLook :=
  { look_id := some "G", products := some [some { product_id := some "P" }] }

def badLookC6 : RawLook :=
  { look_id := some "B", products := some [none] }

def emptyStoreC6 : ResourceStore :=
  { products := fun _ => none, looks := fun _ => none }

theorem partial_failure_containment_witness :
    ((processLooks (fun _ => "r") 0 emptyStoreC6
        ([goodLookC6] ++ badLookC6 :: [goodLookC6])).1.length + 1
      = ([goodLookC6] ++ badLookC6 :: [goodLookC6]).length) ∧
    processLook "r" emptyStoreC6
        { look_id := some "L", products := some ([] ++ some {} :: [some { product_id := some "P" }]) }
      = processLook "r" emptyStoreC6
        { look_id := some "L", products := some ([] ++ [some { product_id := some "P" }]) } :=
  ⟨partial_failure_containment.1 (fun _ => "r") 0 emptyStoreC6
      [goodLookC6] [goodLookC6] badLookC6
      (by intro l hl; rw [List.mem_singleton.mp hl]; rfl)
      rfl
      (by intro l hl; rw [List.mem_singleton.mp hl]; rfl),
   (partial_failure_containment.2 "r" emptyStoreC6
      { look_id := some "L", products := some ([] ++ some {} :: [some { product_id := some "P" }]) }
      [] [some { product_id := some "P" }] {} rfl rfl).1⟩

theorem cacheGet_none {V : Type} (c : Cache V) (now : Nat) (k : String)
    (h : c.map k = none) : Cache.get c now k = (none, c) := by
  unfold Cache.get
  rw [h]

theorem cacheGet_live {V : Type} (c : Cache V) (now : Nat) (k : String) (v : V) (e : Nat)
    (h : c.map k = some ⟨v, e⟩) (hlive : ¬ e < now) : Cache.get c now k = (some v, c) := by
  unfold Cache.get
  rw [h]
  simp only
  rw [if_neg hlive]

/-- The look-mapping results of the loop, independent of the store being
threaded: the loop collects exactly the successfully mapped looks. -/
def mappedLooks (rand : Nat → String) : Nat → List RawLook → List LookResource
  | _, [] => []
  | i, lk :: rest =>
    match mapLookToResource (rand i) lk with
    | Except.error _ => mappedLooks rand (i + 1) rest
    | Except.ok lr => lr :: mappedLooks rand (i + 1) rest

theorem processLooks_fst_eq (rand : Nat → String) :
    ∀ (lks : List RawLook) (i : Nat) (st : ResourceStore),
    (processLooks rand i st lks).1 = mappedLooks rand i lks := by
  intro lks
  induction lks with
  | nil => intro i st; rfl
  | cons lk rest ih =>
    intro i st
    rw [processLooks, mappedLooks]
    unfold processLook
    cases h : mapLookToResource (rand i) lk with
    | error e =>
      simp only
      exact ih (i + 1) st
    | ok lr =>
      simp only
      exact congrArg (fun l => lr :: l) (ih (i + 1) _)

theorem publishCTL_result (rand : Nat → String) (st : ResourceStore) (resp : CTLResponse) :
    (publishCTL rand st resp).1
      = (resp.pdp_item.map mapProductToResource, mappedLooks rand 0 resp.looks) := by
  unfold publishCTL
  cases hp : resp.pdp_item with
  | none =>
    simp only
    rcases hr : processLooks rand 0 st resp.looks with ⟨ls, stx⟩
    have hfst := processLooks_fst_eq rand resp.looks 0 st
    rw [hr] at hfst
    simp only at hfst ⊢
    rw [hfst]
    rfl
  | some pi =>
    simp only
    rcases hr : processLooks rand 0 (st.addProduct (mapProductToResource pi)) resp.looks
      with ⟨ls, stx⟩
    have hfst := processLooks_fst_eq rand resp.looks 0 (st.addProduct (mapProductToResource pi))
    rw [hr] at hfst
    simp only at hfst ⊢
    rw [hfst]
    rfl

theorem svcGetCTL_miss (cfg : SvcConfig) (p : CTLParams) (now : Nat) (rand : Nat → String)
    (U : RawCTLResponse) (st : ServiceState)
    (huse : effUseCache cfg p.useCache = true)
    (hfresh : st.ctlCache.map (ctlCacheKey p) = none) :
    svcGetCTL cfg p now rand U st
      = ((publishCTL rand st.store (clientNormalizeCTL U)).1,
         { st with
             ctlCache := Cache.set st.ctlCache now (ctlCacheKey p) (clientNormalizeCTL U)
           , store := (publishCTL rand st.store (clientNormalizeCTL U)).2
           , clientCalls := st.clientCalls + 1 }) := by
  unfold svcGetCTL
  rw [huse]
  dsimp only
  rw [cacheGet_none st.ctlCache now (ctlCacheKey p) hfresh]
  rfl

theorem svcGetCTL_hit (cfg : SvcConfig) (p : CTLParams) (now : Nat) (rand : Nat → String)
    (U : RawCTLResponse) (st : ServiceState) (resp : CTLResponse) (e : Nat)
    (huse : effUseCache cfg p.useCache = true)
    (hentry : st.ctlCache.map (ctlCacheKey p) = some ⟨resp, e⟩)
    (hlive : ¬ e < now) :
    svcGetCTL cfg p now rand U st
      = ((publishCTL rand st.store resp).1,
         { st with store := (publishCTL rand st.store resp).2 }) := by
  unfold svcGetCTL
  rw [huse]
  dsimp only
  rw [cacheGet_live st.ctlCache now (ctlCacheKey p) resp e hentry hlive]
  rfl

/-- Claim C7: with caching enabled, repeating a getCompleteTheLook call
with the same fingerprint-relevant parameters within the TTL window
issues no second upstream request — the first (cache-missing) call is the
only one that contacts the client, and the second call is served from the
entry the first wrote, producing the same result. -/
theorem ctl_cache_hit_no_second_request (cfg : SvcConfig) (p : CTLParams) (t t' : Nat)
    (rand : Nat → String) (U1 U2 : RawCTLResponse) (st0 : ServiceState)
    (hEnabled : cfg.cacheEnabled = true) (hUse : p.useCache ≠ some false)
    (hFresh : st0.ctlCache.map (ctlCacheKey p) = none)
    (hle : t' ≤ t + st0.ctlCache.ttlMs) :
    (svcGetCTL cfg p t' rand U2 (svcGetCTL cfg p t rand U1 st0).2).2.clientCalls
      = (svcGetCTL cfg p t rand U1 st0).2.clientCalls ∧
    (svcGetCTL cfg p t rand U1 st0).2.clientCalls = st0.clientCalls + 1 ∧
    (svcGetCTL cfg p t' rand U2 (svcGetCTL cfg p t rand U1 st0).2).1
      = (svcGetCTL cfg p t rand U1 st0).1 := by
  have huse : effUseCache cfg p.useCache = true := by
    unfold effUseCache
    rw [if_neg hUse, hEnabled]
  have h1 := svcGetCTL_miss cfg p t rand U1 st0 huse hFresh
  have hkey : (svcGetCTL cfg p t rand U1 st0).2.ctlCache.map (ctlCacheKey p)
      = some ⟨clientNormalizeCTL U1, t + st0.ctlCache.ttlMs⟩ := by
    rw [h1]
    simp [Cache.set]
  have hlive : ¬ (t + st0.ctlCache.ttlMs) < t' := by omega
  have h2 := svcGetCTL_hit cfg p t' rand U2 (svcGetCTL cfg p t rand U1 st0).2
    (clientNormalizeCTL U1) (t + st0.ctlCache.ttlMs) huse hkey hlive
  refine ⟨?_, ?_, ?_⟩
  · rw [h2]
  · rw [h1]
  · rw [h2, h1]
    rw [publishCTL_result, publishCTL_result]

/-- Concrete service configuration and state for witness instances. -/
def cfgC : SvcConfig := { cacheEnabled := true }

def pmsC7 : CTLParams := { productId := "P1", inStock := true, onSale := false }

def u1C7 : RawCTLResponse :=
  { pdp_item := some { product_id := some "P1" }
  , looks := some [some { look_id := some "L1", products := some [some { product_id := some "P2" }] }] }

def u2C7 : RawCTLResponse := { looks := some [] }

/-- Concrete instance of the C7 theorem: a call at time 0 followed by the
same call at time 500 against a 1000 ms cache performs exactly one
upstream request and returns the same result twice, even though the
upstream would now answer differently. -/
theorem ctl_cache_hit_no_second_request_witness :
    (svcGetCTL cfgC pmsC7 500 (fun _ => "r") u2C7
        (svcGetCTL cfgC pmsC7 0 (fun _ => "r") u1C7 (ServiceState.init 1000)).2).2.clientCalls
      = (svcGetCTL cfgC pmsC7 0 (fun _ => "r") u1C7 (ServiceState.init 1000)).2.clientCalls ∧
    (svcGetCTL cfgC pmsC7 0 (fun _ => "r") u1C7 (ServiceState.init 1000)).2.clientCalls
      = (ServiceState.init 1000).clientCalls + 1 ∧
    (svcGetCTL cfgC pmsC7 500 (fun _ => "r") u2C7
        (svcGetCTL cfgC pmsC7 0 (fun _ => "r") u1C7 (ServiceState.init 1000)).2).1
      = (svcGetCTL cfgC pmsC7 0 (fun _ => "r") u1C7 (ServiceState.init 1000)).1 :=
  ctl_cache_hit_no_second_request cfgC pmsC7 0 500 (fun _ => "r") u1C7 u2C7
    (ServiceState.init 1000) rfl (by decide) rfl (by decide)

/-- The concrete upstream body and request of the end-to-end example. -/
def p1C8 : FMProduct := { product_id := some "P1", name := some "Shirt", price := some 7999 }

def p2C8 : FMProduct := { product_id := some "P2", name := some "Pants", price := some 6999 }

def upstreamC8 : RawCTLResponse :=
  { pdp_item := some p1C8
  , looks := some [some { look_id := some "L1", products := some [some p2C8] }] }

def pmsC8 : CTLParams := { productId := "P1", inStock := true, onSale := false }

def outC8 : (Option ProductResource × List LookResource) × ServiceState :=
  svcGetCTL cfgC pmsC8 0 (fun _ => "rnd") upstreamC8 (ServiceState.init 60000)

/-- Claim C8: getCompleteTheLook of P1 (in stock, not on sale, empty
options) against the spec's example upstream body returns the product P1,
one look L1 whose product-id sequence is exactly P2, and afterwards the
store serves getProduct for both P1 and P2 with the mapped entities. -/
theorem ctl_end_to_end :
    (outC8.1.1.map (fun pr => pr.id)) = some (some "P1") ∧
    outC8.1.2.length = 1 ∧
    (outC8.1.2.map (fun lr => lr.id)) = ["L1"] ∧
    (outC8.1.2.map (fun lr => lr.productIds)) = [["P2"]] ∧
    svcGetProduct outC8.2 "P1" = some (mapProductToResource p1C8) ∧
    svcGetProduct outC8.2 "P2" = some (mapProductToResource p2C8) := by
  decide

theorem unknown_append_ne_empty (r : String) : "unknown-" ++ r ≠ "" := by
  intro h
  have hd := congrArg String.data h
  rw [String.data_append] at hd
  have : ("unknown-" : String).data = [] ∧ r.data = [] := List.append_eq_nil.mp hd
  exact absurd this.1 (by decide)

theorem mapLook_id (r : String) (l : RawLook) (lr : LookResource)
    (h : mapLookToResource r l = Except.ok lr) : lr.id = lookIdOf r l := by
  unfold mapLookToResource at h
  cases hres : resolveProductIds l with
  | error e => rw [hres] at h; exact absurd h (by simp)
  | ok pids => rw [hres] at h; injection h with h2; rw [← h2]

theorem lookIdOf_ne_empty (r : String) (l : RawLook) : lookIdOf r l ≠ "" := by
  unfold lookIdOf jsOrStr
  rcases l.look_id with _ | s
  · rcases l.id with _ | t
    · exact unknown_append_ne_empty r
    · simp only
      split_ifs with ht
      · exact unknown_append_ne_empty r
      · exact ht
  · simp only
    split_ifs with hs
    · rcases l.id with _ | t
      · exact unknown_append_ne_empty r
      · simp only
        split_ifs with ht
        · exact unknown_append_ne_empty r
        · exact ht
    · exact hs

theorem jsOr_synthetic (a b : Option String) (c : String)
    (h : jsOrStr a (jsOrStr b "") = "") : jsOrStr a (jsOrStr b c) = c := by
  rcases a with _ | s
  · rcases b with _ | t
    · rfl
    · unfold jsOrStr at h ⊢
      dsimp only at h ⊢
      split_ifs at h ⊢ with ht
      · rfl
      · exact absurd h ht
  · rcases b with _ | t
    · unfold jsOrStr at h ⊢
      dsimp only at h ⊢
      split_ifs at h ⊢ with hs
      · rfl
      · exact absurd h hs
    · unfold jsOrStr at h ⊢
      dsimp only at h ⊢
      split_ifs at h ⊢ with hs ht
      · rfl
      · exact absurd h ht
      · exact absurd h hs

theorem lookIdOf_synthetic (r : String) (l : RawLook)
    (h : jsOrStr l.look_id (jsOrStr l.id "") = "") : lookIdOf r l = "unknown-" ++ r :=
  jsOr_synthetic l.look_id l.id ("unknown-" ++ r) h

theorem foldl_products_looks (ps : List (Option FMProduct)) :
    ∀ st : ResourceStore,
    (ps.foldl
      (fun s op =>
        match op with
        | none => s
        | some p =>
          if jsOrStr p.product_id "" = "" then s
          else s.addProduct (mapProductToResource p)) st).looks = st.looks := by
  induction ps with
  | nil => intro st; rfl
  | cons op rest ih =>
    intro st
    rw [List.foldl_cons]
    cases op with
    | none => exact ih st
    | some p =>
      simp only
      split_ifs
      · exact ih st
      · rw [ih]
        rfl

theorem processLook_looks_inv (r : String) (st : ResourceStore) (l : RawLook)
    (hst : ∀ k, st.looks k ≠ none → k ≠ "") :
    ∀ k, (processLook r st l).1.looks k ≠ none → k ≠ "" := by
  intro k hk
  unfold processLook at hk
  cases h : mapLookToResource r l with
  | error e => rw [h] at hk; exact hst k hk
  | ok lr =>
    rw [h] at hk
    simp only at hk
    rw [foldl_products_looks] at hk
    unfold ResourceStore.addLook at hk
    simp only at hk
    by_cases hkl : k = lr.id
    · subst hkl
      rw [mapLook_id r l lr h]
      exact lookIdOf_ne_empty r l
    · rw [if_neg hkl] at hk
      exact hst k hk

theorem processLooks_looks_inv (rand : Nat → String) :
    ∀ (lks : List RawLook) (i : Nat) (st : ResourceStore),
    (∀ k, st.looks k ≠ none → k ≠ "") →
    ∀ k, (processLooks rand i st lks).2.looks k ≠ none → k ≠ "" := by
  intro lks
  induction lks with
  | nil => intro i st hst k hk; exact hst k hk
  | cons lk rest ih =>
    intro i st hst k hk
    rw [processLooks] at hk
    have hinv := processLook_looks_inv (rand i) st lk hst
    rcases hpl : processLook (rand i) st lk with ⟨st1, olr⟩
    rw [hpl] at hk hinv
    simp only at hinv
    cases olr with
    | none =>
      simp only at hk
      exact ih (i + 1) st1 hinv k hk
    | some lr =>
      simp only at hk
      rcases hr : processLooks rand (i + 1) st1 rest with ⟨ls, st2⟩
      rw [hr] at hk
      simp only at hk
      have := ih (i + 1) st1 hinv
      rw [hr] at this
      exact this k hk

/-- Claim C9, counterexample to the non-collision part: the synthetic-id
namespace is the fixed text prepended before the random digits, and
nothing prevents a genuine upstream look id from living in that same
namespace — an upstream look whose look_id is literally the string below
maps to exactly the id that an id-less look receives synthetically when
the random draw is 123456. -/
theorem synthetic_id_collision :
    (mapLookToResource "123456" {}).map (fun lr => lr.id) = Except.ok "unknown-123456" ∧
    (mapLookToResource "x" { look_id := some "unknown-123456" }).map (fun lr => lr.id)
      = Except.ok "unknown-123456" := by
  decide

/-- Claim C9 as amended: every look the mapper produces (hence every look
the service stores) has a non-empty identifier; a look with no usable
upstream id receives the synthetic id built by prepending the fixed
namespace text to the random draw; such synthetic ids can never equal an
upstream look id that does not itself start with that namespace text
(but can collide with one that does); and the look store only ever holds
non-empty keys. -/
theorem look_id_invariant :
    (∀ (r : String) (l : RawLook) (lr : LookResource),
      mapLookToResource r l = Except.ok lr → lr.id ≠ "") ∧
    (∀ (r : String) (l : RawLook) (lr : LookResource),
      jsOrStr l.look_id (jsOrStr l.id "") = "" →
      mapLookToResource r l = Except.ok lr → lr.id = "unknown-" ++ r) ∧
    (∀ (r s : String), (∀ u, s ≠ "unknown-" ++ u) → "unknown-" ++ r ≠ s) ∧
    (∀ (rand : Nat → String) (i : Nat) (st : ResourceStore) (lks : List RawLook),
      (∀ k, st.looks k ≠ none → k ≠ "") →
      (∀ k, (processLooks rand i st lks).2.looks k ≠ none → k ≠ "")) := by
  refine ⟨?_, ?_, ?_, ?_⟩
  · intro r l lr h
    rw [mapLook_id r l lr h]
    exact lookIdOf_ne_empty r l
  · intro r l lr hsyn h
    rw [mapLook_id r l lr h]
    exact lookIdOf_synthetic r l hsyn
  · intro r s hns h
    exact hns r h.symm
  · intro rand i st lks hst
    exact processLooks_looks_inv rand lks i st hst

/-- The concrete look resource produced by mapping the empty look with
random draw 123456. -/
def lrC9 : LookResource :=
  { id := "unknown-123456"
  , title := "Look unknown-123456"
  , description := none
  , url := none
  , imageUrl := none
  , productIds := []
  , attributes := none }

/-- Concrete instance of the amended C9 theorem: the synthetic id of an
id-less look is non-empty and namespaced, and the look store key written
by a batch containing one good look is non-empty. -/
theorem look_id_invariant_witness :
    lrC9.id ≠ "" ∧
    lrC9.id = "unknown-" ++ "123456" ∧
    ("G" : String) ≠ "" :=
  ⟨look_id_invariant.1 "123456" {} lrC9 (by decide),
   look_id_invariant.2.1 "123456" {} lrC9 (by decide) (by decide),
   look_id_invariant.2.2.2 (fun _ => "z") 0 emptyStoreC6 [goodLookC6]
     (fun k hk => absurd rfl hk) "G" (by decide)⟩

/-- A getCompleteTheLook argument bundle with only the
personalization-related options replaced: gender, customer id, session
id and api version. -/
def withPersonalization (p : CTLParams) (g : Option Gender) (cid sid av : Option String) :
    CTLParams :=
  { p with gender := g, customerId := cid, sessionId := sid, apiVersion := av }

/-- The same replacement on a getVisuallySimilar argument bundle. -/
def vsWithPersonalization (q : VSParams) (g : Option Gender) (cid sid av : Option String) :
    VSParams :=
  { q with gender := g, customerId := cid, sessionId := sid, apiVersion := av }

theorem publishVS_result (st : ResourceStore) (resp : VSResponse) :
    (publishVS st resp).1 = (resp.products.map mapProductToResource, resp.total) := rfl

theorem svcGetVS_miss (cfg : SvcConfig) (q : VSParams) (now : Nat)
    (U : VSResponse) (st : ServiceState)
    (huse : effUseCache cfg q.useCache = true)
    (hfresh : st.vsCache.map (vsCacheKey q) = none) :
    svcGetVS cfg q now U st
      = ((publishVS st.store U).1,
         { st with
             vsCache := Cache.set st.vsCache now (vsCacheKey q) U
           , store := (publishVS st.store U).2
           , clientCalls := st.clientCalls + 1 }) := by
  unfold svcGetVS
  rw [huse]
  dsimp only
  rw [cacheGet_none st.vsCache now (vsCacheKey q) hfresh]
  rfl

theorem svcGetVS_hit (cfg : SvcConfig) (q : VSParams) (now : Nat)
    (U : VSResponse) (st : ServiceState) (resp : VSResponse) (e : Nat)
    (huse : effUseCache cfg q.useCache = true)
    (hentry : st.vsCache.map (vsCacheKey q) = some ⟨resp, e⟩)
    (hlive : ¬ e < now) :
    svcGetVS cfg q now U st
      = ((publishVS st.store resp).1,
         { st with store := (publishVS st.store resp).2 }) := by
  unfold svcGetVS
  rw [huse]
  dsimp only
  rw [cacheGet_live st.vsCache now (vsCacheKey q) resp e hentry hlive]
  rfl

/-- Claim C10: the cache fingerprints of getCompleteTheLook and
getVisuallySimilar ignore the gender, customerId, sessionId and
apiVersion options even though gender, customer id and api version are
forwarded to the upstream request and can change its response;
consequently, with caching enabled, a second call differing only in those
options within the TTL window issues no further upstream request and
returns the result derived from the first call's cached response, even
against an upstream that would now answer differently. -/
theorem fingerprint_ignores_personalization :
    (∀ (p : CTLParams) (g : Option Gender) (cid sid av : Option String),
      ctlCacheKey (withPersonalization p g cid sid av) = ctlCacheKey p) ∧
    (∀ (q : VSParams) (g : Option Gender) (cid sid av : Option String),
      vsCacheKey (vsWithPersonalization q g cid sid av) = vsCacheKey q) ∧
    (∀ (cfg : SvcConfig) (p : CTLParams) (g : Option Gender) (cid sid av : Option String)
        (t t' : Nat) (rand : Nat → String) (U1 U2 : RawCTLResponse) (st0 : ServiceState),
      cfg.cacheEnabled = true → p.useCache ≠ some false →
      st0.ctlCache.map (ctlCacheKey p) = none →
      t' ≤ t + st0.ctlCache.ttlMs →
      (svcGetCTL cfg (withPersonalization p g cid sid av) t' rand U2
          (svcGetCTL cfg p t rand U1 st0).2).2.clientCalls
        = (svcGetCTL cfg p t rand U1 st0).2.clientCalls ∧
      (svcGetCTL cfg (withPersonalization p g cid sid av) t' rand U2
          (svcGetCTL cfg p t rand U1 st0).2).1
        = (svcGetCTL cfg p t rand U1 st0).1) ∧
    (∀ (cfg : SvcConfig) (q : VSParams) (g : Option Gender) (cid sid av : Option String)
        (t t' : Nat) (U1 U2 : VSResponse) (st0 : ServiceState),
      cfg.cacheEnabled = true → q.useCache ≠ some false →
      st0.vsCache.map (vsCacheKey q) = none →
      t' ≤ t + st0.vsCache.ttlMs →
      (svcGetVS cfg (vsWithPersonalization q g cid sid av) t' U2
          (svcGetVS cfg q t U1 st0).2).2.clientCalls
        = (svcGetVS cfg q t U1 st0).2.clientCalls ∧
      (svcGetVS cfg (vsWithPersonalization q g cid sid av) t' U2
          (svcGetVS cfg q t U1 st0).2).1
        = (svcGetVS cfg q t U1 st0).1) := by
  refine ⟨fun p g cid sid av => rfl, fun q g cid sid av => rfl, ?_, ?_⟩
  · intro cfg p g cid sid av t t' rand U1 U2 st0 hEnabled hUse hFresh hle
    have huse : effUseCache cfg p.useCache = true := by
      unfold effUseCache
      rw [if_neg hUse, hEnabled]
    have huseq : effUseCache cfg (withPersonalization p g cid sid av).useCache = true := huse
    have h1 := svcGetCTL_miss cfg p t rand U1 st0 huse hFresh
    have hkey : (svcGetCTL cfg p t rand U1 st0).2.ctlCache.map
        (ctlCacheKey (withPersonalization p g cid sid av))
        = some ⟨clientNormalizeCTL U1, t + st0.ctlCache.ttlMs⟩ := by
      have hkeyeq : ctlCacheKey (withPersonalization p g cid sid av) = ctlCacheKey p := rfl
      rw [hkeyeq, h1]
      simp [Cache.set]
    have hlive : ¬ (t + st0.ctlCache.ttlMs) < t' := by omega
    have h2 := svcGetCTL_hit cfg (withPersonalization p g cid sid av) t' rand U2
      (svcGetCTL cfg p t rand U1 st0).2
      (clientNormalizeCTL U1) (t + st0.ctlCache.ttlMs) huseq hkey hlive
    constructor
    · rw [h2]
    · rw [h2, h1]
      rw [publishCTL_result, publishCTL_result]
  · intro cfg q g cid sid av t t' U1 U2 st0 hEnabled hUse hFresh hle
    have huse : effUseCache cfg q.useCache = true := by
      unfold effUseCache
      rw [if_neg hUse, hEnabled]
    have huseq : effUseCache cfg (vsWithPersonalization q g cid sid av).useCache = true := huse
    have h1 := svcGetVS_miss cfg q t U1 st0 huse hFresh
    have hkey : (svcGetVS cfg q t U1 st0).2.vsCache.map
        (vsCacheKey (vsWithPersonalization q g cid sid av))
        = some ⟨U1, t + st0.vsCache.ttlMs⟩ := by
      have hkeyeq : vsCacheKey (vsWithPersonalization q g cid sid av) = vsCacheKey q := rfl
      rw [hkeyeq, h1]
      simp [Cache.set]
    have hlive : ¬ (t + st0.vsCache.ttlMs) < t' := by omega
    have h2 := svcGetVS_hit cfg (vsWithPersonalization q g cid sid av) t' U2
      (svcGetVS cfg q t U1 st0).2 U1 (t + st0.vsCache.ttlMs) huseq hkey hlive
    constructor
    · rw [h2]
    · rw [h2, h1]
      rw [publishVS_result, publishVS_result]

/-- The concrete getVisuallySimilar request and upstream bodies of the
C10 instance. -/
def qC10 : VSParams := { productId := "P1" }

def v1C10 : VSResponse := { products := [{ product_id := some "P9" }], total := 1 }

def v2C10 : VSResponse := { products := [], total := 0 }

/-- Concrete instance of the C10 theorem: for both operations, the same
request repeated with a different gender, customer id, session id and
api version at time 500 against a 1000 ms cache issues no further
upstream request and returns the first call's result. -/
theorem fingerprint_ignores_personalization_witness :
    ctlCacheKey (withPersonalization pmsC7 (some Gender.W) (some "cust") (some "sess")
        (some "v2")) = ctlCacheKey pmsC7 ∧
    ((svcGetCTL cfgC (withPersonalization pmsC7 (some Gender.W) (some "cust") (some "sess")
          (some "v2")) 500 (fun _ => "r") u2C7
        (svcGetCTL cfgC pmsC7 0 (fun _ => "r") u1C7 (ServiceState.init 1000)).2).2.clientCalls
      = (svcGetCTL cfgC pmsC7 0 (fun _ => "r") u1C7 (ServiceState.init 1000)).2.clientCalls ∧
    (svcGetCTL cfgC (withPersonalization pmsC7 (some Gender.W) (some "cust") (some "sess")
          (some "v2")) 500 (fun _ => "r") u2C7
        (svcGetCTL cfgC pmsC7 0 (fun _ => "r") u1C7 (ServiceState.init 1000)).2).1
      = (svcGetCTL cfgC pmsC7 0 (fun _ => "r") u1C7 (ServiceState.init 1000)).1) ∧
    ((svcGetVS cfgC (vsWithPersonalization qC10 (some Gender.W) (some "cust") (some "sess")
          (some "v2")) 500 v2C10
        (svcGetVS cfgC qC10 0 v1C10 (ServiceState.init 1000)).2).2.clientCalls
      = (svcGetVS cfgC qC10 0 v1C10 (ServiceState.init 1000)).2.clientCalls ∧
    (svcGetVS cfgC (vsWithPersonalization qC10 (some Gender.W) (some "cust") (some "sess")
          (some "v2")) 500 v2C10
        (svcGetVS cfgC qC10 0 v1C10 (ServiceState.init 1000)).2).1
      = (svcGetVS cfgC qC10 0 v1C10 (ServiceState.init 1000)).1) :=
  ⟨fingerprint_ignores_personalization.1 pmsC7 (some Gender.W) (some "cust") (some "sess")
      (some "v2"),
   fingerprint_ignores_personalization.2.2.1 cfgC pmsC7 (some Gender.W) (some "cust")
     (some "sess") (some "v2") 0 500 (fun _ => "r") u1C7 u2C7 (ServiceState.init 1000)
     rfl (by decide) rfl (by decide),
   fingerprint_ignores_personalization.2.2.2 cfgC qC10 (some Gender.W) (some "cust")
     (some "sess") (some "v2") 0 500 v1C10 v2C10 (ServiceState.init 1000)
     rfl (by decide) rfl (by decide)⟩
